import Mathlib

/-!
# Verification of the `sfv` structured-field-values codec

A shallow embedding of the `sfv` library (RFC 8941 structured field values):
the validated primitive model (`BareItem` and its per-variant `validate` /
`serialize_ref` functions from `src/bare_item/*.rs`) and the canonical
serializer (`src/serializer.rs`).  The claims checked here concern the
construction-time validation gates of the primitives and the serializer's
canonical-output and error rules.

Numbers follow the source: `rust_decimal::Decimal` is modelled as an integer
mantissa with a decimal scale, `i64` inputs as `Int`, and Rust `char` as Lean
`Char` (both are Unicode scalar values).  Fallible Rust functions returning
`SFVResult<T> = Result<T, &'static str>` become `Except String`.
-/

namespace Sfv

/-- `SFVResult<T> = Result<T, &'static str>` from `src/lib.rs`. -/
abbrev SFVResult (α : Type) := Except String α

/-! ## Model of `rust_decimal::Decimal`

A `rust_decimal::Decimal` is a 96-bit sign-magnitude integer mantissa together
with a scale in `0..=28`; its numeric value is `mantissa / 10 ^ scale`.  We
model the mantissa as an `Int` (sign-magnitude negative zero is not
representable, which does not affect numeric behaviour).  Only the operations
the source uses are modelled: `round_dp` (banker's rounding, the crate's
documented `MidpointNearestEven` default), `trunc`, `abs`, `fract().is_zero()`,
`to_u64`, `to_string`, and `format!("{:.1}", _)`. -/

structure Decimal where
  mantissa : Int
  scale : Nat
deriving DecidableEq

/-- Divide `n` by `d`, rounding half to even (banker's rounding), on
magnitudes.  This is the rounding step of `rust_decimal`'s
`RoundingStrategy::MidpointNearestEven`, the default used by `round_dp`. -/
def roundHalfEvenDiv (n d : Nat) : Nat :=
  let q := n / d
  let r := n % d
  if 2 * r < d then q
  else if d < 2 * r then q + 1
  else if q % 2 = 0 then q else q + 1

/-- `rust_decimal::Decimal::round_dp(dp)`: round to `dp` fractional digits
using banker's rounding; a value whose scale is already at most `dp` is
returned unchanged (no rescaling up, trailing zeros within the scale kept). -/
def Decimal.round_dp (x : Decimal) (dp : Nat) : Decimal :=
  if x.scale ≤ dp then x
  else
    let p := 10 ^ (x.scale - dp)
    let q := roundHalfEvenDiv x.mantissa.natAbs p
    ⟨if x.mantissa < 0 then -(q : Int) else (q : Int), dp⟩

/-- `rust_decimal::Decimal::trunc()`: the integer portion, scale 0. -/
def Decimal.trunc (x : Decimal) : Decimal :=
  let q := x.mantissa.natAbs / 10 ^ x.scale
  ⟨if x.mantissa < 0 then -(q : Int) else (q : Int), 0⟩

/-- `rust_decimal::Decimal::abs()`. -/
def Decimal.abs (x : Decimal) : Decimal :=
  ⟨(x.mantissa.natAbs : Int), x.scale⟩

/-- `rust_decimal` `ToPrimitive::to_u64`: `Some` exactly when the truncated
value is a non-negative integer below `2 ^ 64`. -/
def Decimal.to_u64 (x : Decimal) : Option Nat :=
  if x.mantissa < 0 then none
  else
    let v := x.mantissa.natAbs / 10 ^ x.scale
    if v < 2 ^ 64 then some v else none

/-- `x.fract().is_zero()`: the fractional portion is zero exactly when the
mantissa is divisible by `10 ^ scale`. -/
def Decimal.fractIsZero (x : Decimal) : Bool :=
  x.mantissa.natAbs % 10 ^ x.scale = 0

/-- Decimal digits of `n`, most significant first, via an explicit fuel
parameter so the definition is structural (kernel-reducible).  `natDigits`
below always supplies sufficient fuel. -/
def natDigitsAux : Nat → Nat → List Char
  | 0, _ => []
  | fuel + 1, n =>
    if n < 10 then [Char.ofNat (48 + n)]
    else natDigitsAux fuel (n / 10) ++ [Char.ofNat (48 + n % 10)]

/-- Decimal digit string of a natural number (`0` renders as `"0"`). -/
def natDigits (n : Nat) : List Char := natDigitsAux (n + 1) n

/-- `rust_decimal::Decimal`'s `Display` (`to_string()`): sign, then the
integer digits, and — when the scale is positive — a point followed by
exactly `scale` fractional digits, zero-padded on the left.  Trailing zeros
within the stored scale are printed (e.g. mantissa 110, scale 2 → `"1.10"`). -/
def Decimal.toStr (x : Decimal) : String :=
  let n := x.mantissa.natAbs
  let sign := if x.mantissa < 0 then "-" else ""
  if x.scale = 0 then sign ++ ⟨natDigits n⟩
  else
    let ip := n / 10 ^ x.scale
    let fp := n % 10 ^ x.scale
    let fds := natDigits fp
    sign ++ ⟨natDigits ip⟩ ++ "." ++ ⟨List.replicate (x.scale - fds.length) '0' ++ fds⟩

/-- `format!("{:.1}", x)` on a `rust_decimal::Decimal` whose fractional part
is zero (the only situation where the source uses this format): the integer
part followed by `".0"`. -/
def Decimal.displayPrec1 (x : Decimal) : String :=
  let sign := if x.mantissa < 0 then "-" else ""
  sign ++ ⟨natDigits (x.mantissa.natAbs / 10 ^ x.scale)⟩ ++ ".0"

/-! ## `src/bare_item/decimal.rs` -/

/-- `BareItemDecimal::validate` (`src/bare_item/decimal.rs:24-39`): round to
3 fractional digits, then reject when the truncated integer component exceeds
999 999 999 999 in magnitude (the `to_u64` conversion failing yields the same
error string). -/
def BareItemDecimal.validate (value : Decimal) : SFVResult Decimal :=
  let fraction_length := 3
  let decimal := value.round_dp fraction_length
  let int_comp := decimal.trunc
  match int_comp.abs.to_u64 with
  | none => Except.error "serialize_decimal: integer component > 12 digits"
  | some int_comp =>
    if int_comp > 999999999999 then
      Except.error "serialize_decimal: integer component > 12 digits"
    else
      Except.ok decimal

/-- `BareItemDecimal::serialize_ref` (`src/bare_item/decimal.rs:56-65`):
fractional part zero → `format!("{:.1}", d)`; otherwise `d.to_string()`. -/
def BareItemDecimal.serialize_ref (value : Decimal) : String :=
  if value.fractIsZero then value.displayPrec1 else value.toStr

/-! ## `src/bare_item/integer.rs` -/

/-- `BareItemInteger::validate` (`src/bare_item/integer.rs:30-39`): the `i64`
must lie in `[-999_999_999_999_999, 999_999_999_999_999]`. -/
def BareItemInteger.validate (value : Int) : SFVResult Int :=
  let min_int : Int := -999999999999999
  let max_int : Int := 999999999999999
  if ¬(min_int ≤ value ∧ value ≤ max_int) then
    Except.error "serialize_integer: integer is out of range"
  else
    Except.ok value

/-- `BareItemInteger::serialize_ref`: `i64::to_string`. -/
def BareItemInteger.serialize_ref (value : Int) : String :=
  (if value < 0 then "-" else "") ++ ⟨natDigits value.natAbs⟩

/-! ## `src/bare_item/string.rs`

Rust `char` and Lean `Char` are both Unicode scalar values; `str::is_ascii`
holds exactly when every char's code point is below 128. -/

/-- `BareItemString::validate` (`src/bare_item/string.rs:41-54`): reject
non-ASCII input, then reject any DEL (0x7F) or C0 control (0x00–0x1F) char. -/
def BareItemString.validate (value : String) : SFVResult String :=
  if ¬ value.data.all (fun c => c.toNat < 128) then
    Except.error "serialize_string: non-ascii character"
  else
    let vchar_or_sp := fun (c : Char) => c.toNat = 0x7f ∨ c.toNat ≤ 0x1f
    if value.data.any (fun c => vchar_or_sp c) then
      Except.error "serialize_string: not a visible character"
    else
      Except.ok value

/-- `BareItemString::serialize_ref` (`src/bare_item/string.rs:63-74`): wrap in
double quotes, backslash-escaping `\` and `"`. -/
def BareItemString.serialize_ref (value : String) : String :=
  "\"" ++ ⟨value.data.flatMap (fun c => if c = '\\' ∨ c = '"' then ['\\', c] else [c])⟩ ++ "\""

/-! ## `src/bare_item/token.rs` -/

/-- Modelled from the spec: `utils::is_tchar` lives in the repository's
`utils` module, whose source is not provided.  The spec (§3) says token tail
characters are drawn from the HTTP `tchar` set: ALPHA / DIGIT / one of
`!#$%&'*+-.^_\x60|~`. -/
def is_tchar (c : Char) : Bool :=
  (65 ≤ c.toNat ∧ c.toNat ≤ 90) ∨ (97 ≤ c.toNat ∧ c.toNat ≤ 122) ∨
    (48 ≤ c.toNat ∧ c.toNat ≤ 57) ∨ "!#$%&'*+-.^_`|~".contains c

/-- `c.is_ascii_alphabetic()`. -/
def isAsciiAlphabetic (c : Char) : Bool :=
  (65 ≤ c.toNat ∧ c.toNat ≤ 90) ∨ (97 ≤ c.toNat ∧ c.toNat ≤ 122)

/-- `BareItemToken::validate` (`src/bare_item/token.rs:38-60`): reject
non-ASCII input; then, when a first character exists, it must be ASCII alpha
or `*`, and every following character must be `tchar`, `:` or `/`.  An empty
string skips both character checks and is accepted. -/
def BareItemToken.validate (value : String) : SFVResult String :=
  if ¬ value.data.all (fun c => c.toNat < 128) then
    Except.error "serialize_string: non-ascii character"
  else
    match value.data with
    | [] => Except.ok value
    | c :: rest =>
      if ¬(isAsciiAlphabetic c ∨ c = '*') then
        Except.error "serialise_token: first character is not ALPHA or '*'"
      else if rest.any (fun ch => ¬(is_tchar ch ∨ ch = ':' ∨ ch = '/')) then
        Except.error "serialise_token: disallowed character"
      else
        Except.ok value

/-- `BareItemToken::serialize_ref` (`src/bare_item/token.rs:68-73`): emit the
token verbatim. -/
def BareItemToken.serialize_ref (value : String) : String := value

/-! ## `src/bare_item/boolean.rs` and `src/bare_item/byte_sequence.rs` -/

/-- `BareItemBoolean::serialize_ref`: `?1` / `?0`. -/
def BareItemBoolean.serialize_ref (value : Bool) : String :=
  if value then "?1" else "?0"

/-- The standard base64 alphabet used by `data_encoding::BASE64`. -/
def base64Alphabet : List Char :=
  "ABCDEFGHIJKLMNOPQRSTUVWXYZabcdefghijklmnopqrstuvwxyz0123456789+/".data

/-- Standard base64 with padding (`data_encoding::BASE64.encode`), over bytes
modelled as naturals below 256. -/
def base64Encode : List Nat → List Char
  | [] => []
  | [b0] =>
    let c := fun i => base64Alphabet.getD i 'A'
    [c (b0 / 4), c (b0 % 4 * 16), '=', '=']
  | [b0, b1] =>
    let c := fun i => base64Alphabet.getD i 'A'
    [c (b0 / 4), c (b0 % 4 * 16 + b1 / 16), c (b1 % 16 * 4), '=']
  | b0 :: b1 :: b2 :: rest =>
    let c := fun i => base64Alphabet.getD i 'A'
    c (b0 / 4) :: c (b0 % 4 * 16 + b1 / 16) :: c (b1 % 16 * 4 + b2 / 64) :: c (b2 % 64)
      :: base64Encode rest

/-- `BareItemByteSeq::serialize_ref`: `:` + base64 body + `:`. -/
def BareItemByteSeq.serialize_ref (value : List Nat) : String :=
  ":" ++ ⟨base64Encode value⟩ ++ ":"

/-! ## Composite model (`src/lib.rs`)

`IndexMap` is an insertion-ordered key→value map; the serializer only ever
iterates it in insertion order, so association lists model the maps. -/

/-- The `BareItem` enum (`src/bare_item.rs:24-44`).  Each variant carries the
payload of its validated newtype wrapper. -/
inductive BareItem where
  | decimal (d : Decimal)
  | integer (i : Int)
  | string (s : String)
  | byteSeq (b : List Nat)
  | boolean (b : Bool)
  | token (t : String)
deriving DecidableEq

/-- `Parameters = IndexMap<String, BareItem>`, in insertion order. -/
abbrev Parameters := List (String × BareItem)

/-- The `Item` struct (`src/lib.rs`). -/
structure Item where
  bare_item : BareItem
  params : Parameters
deriving DecidableEq

/-- The `InnerList` struct (`src/lib.rs`). -/
structure InnerList where
  items : List Item
  params : Parameters
deriving DecidableEq

/-- The `ListEntry` enum (`src/lib.rs`). -/
inductive ListEntry where
  | item (i : Item)
  | innerList (l : InnerList)
deriving DecidableEq

/-- `List = Vec<ListEntry>` (named `SfvList` here; `List` is taken). -/
abbrev SfvList := List ListEntry

/-- `Dictionary = IndexMap<String, ListEntry>`, in insertion order. -/
abbrev Dictionary := List (String × ListEntry)

/-- `BareItem::write` (`src/bare_item.rs:238-249`): dispatch to the variant's
`serialize_ref`.  The source wraps the result in `Ok(())` unconditionally, so
the model is a total `String` function. -/
def BareItem.write : BareItem → String
  | .integer v => BareItemInteger.serialize_ref v
  | .decimal v => BareItemDecimal.serialize_ref v
  | .string v => BareItemString.serialize_ref v
  | .byteSeq v => BareItemByteSeq.serialize_ref v
  | .boolean v => BareItemBoolean.serialize_ref v
  | .token v => BareItemToken.serialize_ref v

/-- `BareItem::new_token` (`src/bare_item.rs:137-140`): validate, then wrap. -/
def BareItem.new_token (value : String) : SFVResult BareItem := do
  let v ← BareItemToken.validate value
  pure (BareItem.token v)

/-- `BareItem::new_integer` (`src/bare_item.rs:85-88`): validate, then wrap. -/
def BareItem.new_integer (value : Int) : SFVResult BareItem := do
  let v ← BareItemInteger.validate value
  pure (BareItem.integer v)

/-- `BareItem::as_int` (`src/bare_item.rs:172-177`). -/
def BareItem.as_int : BareItem → Option Int
  | .integer v => some v
  | _ => none

/-! ## Serializer (`src/serializer.rs`)

Each Rust function appends to a `&mut String` and returns
`SFVResult<()>`; here each returns the appended text as `Except String
String`, composed by concatenation — faithful to the result value and, on
success, to the final output. -/

namespace Serializer

/-- `Serializer::serialize_key` (`src/serializer.rs:184-201`): reject any
character outside lowercase-ASCII / digit / `_ - * .`; then, when a first
character exists, it must be lowercase-ASCII or `*`.  On success the key
itself is appended. -/
def serialize_key (input_key : String) : SFVResult String :=
  let disallowed_chars := fun (c : Char) =>
    ¬((97 ≤ c.toNat ∧ c.toNat ≤ 122) ∨ (48 ≤ c.toNat ∧ c.toNat ≤ 57) ∨
      c = '_' ∨ c = '-' ∨ c = '*' ∨ c = '.')
  if input_key.data.any (fun c => disallowed_chars c) then
    Except.error "serialize_key: disallowed character in input"
  else
    match input_key.data with
    | [] => Except.ok input_key
    | c :: _ =>
      if ¬((97 ≤ c.toNat ∧ c.toNat ≤ 122) ∨ c = '*') then
        Except.error "serialize_key: first character is not lcalpha or '*'"
      else Except.ok input_key

/-- `Serializer::serialize_ref_parameter` (`src/serializer.rs:169-182`):
`;` + key, then `=` + bare item unless the value is Boolean true.  (The
source compares the `RefBareItem` view of the value against
`RefBareItem::Boolean(true)`; the conversion preserves variant and payload.) -/
def serialize_ref_parameter (name : String) (value : BareItem) : SFVResult String := do
  let k ← serialize_key name
  if value ≠ BareItem.boolean true then
    pure (";" ++ k ++ "=" ++ value.write)
  else
    pure (";" ++ k)

/-- `Serializer::serialize_parameters` (`src/serializer.rs:157-167`): emit
each parameter in insertion order, aborting on the first error. -/
def serialize_parameters : Parameters → SFVResult String
  | [] => pure ""
  | p :: rest => do
    let s ← serialize_ref_parameter p.1 p.2
    let r ← serialize_parameters rest
    pure (s ++ r)

/-- `Serializer::serialize_item` (`src/serializer.rs:50-56`): the bare item
(whose write is infallible), then its parameters. -/
def serialize_item (input_item : Item) : SFVResult String := do
  let p ← serialize_parameters input_item.params
  pure (input_item.bare_item.write ++ p)

/-- The item loop of `Serializer::serialize_inner_list`
(`src/serializer.rs:128-135`): items joined by a single space, no trailing
separator. -/
def serializeItemsSpaceSep : List Item → SFVResult String
  | [] => pure ""
  | [i] => serialize_item i
  | i :: rest => do
    let s ← serialize_item i
    let r ← serializeItemsSpaceSep rest
    pure (s ++ " " ++ r)

/-- `Serializer::serialize_inner_list` (`src/serializer.rs:121-139`):
`(` + space-joined items + `)` + the inner list's parameters. -/
def serialize_inner_list (input_inner_list : InnerList) : SFVResult String := do
  let body ← serializeItemsSpaceSep input_inner_list.items
  let p ← serialize_parameters input_inner_list.params
  pure ("(" ++ body ++ ")" ++ p)

/-- One member of the list loop in `Serializer::serialize_list`
(`src/serializer.rs:66-73`). -/
def serializeListMember : ListEntry → SFVResult String
  | .item i => serialize_item i
  | .innerList l => serialize_inner_list l

/-- The member loop of `Serializer::serialize_list`: members joined by
`", "`, no trailing separator. -/
def serializeListMembers : SfvList → SFVResult String
  | [] => pure ""
  | [m] => serializeListMember m
  | m :: rest => do
    let s ← serializeListMember m
    let r ← serializeListMembers rest
    pure (s ++ ", " ++ r)

/-- `Serializer::serialize_list` (`src/serializer.rs:59-83`): error on an
empty list, otherwise the comma-space-joined members. -/
def serialize_list (input_list : SfvList) : SFVResult String :=
  if input_list.isEmpty then
    Except.error "serialize_list: serializing empty field is not allowed"
  else
    serializeListMembers input_list

/-- The body of the member loop in `Serializer::serialize_dict`
(`src/serializer.rs:91-109`): the key, then — unless the member is an Item
whose bare item is Boolean true, in which case only the member's parameters —
`=` followed by the item or inner list. -/
def serializeDictMember (member_name : String) (member_value : ListEntry) :
    SFVResult String := do
  let k ← serialize_key member_name
  match member_value with
  | .item item =>
    if item.bare_item = BareItem.boolean true then do
      let p ← serialize_parameters item.params
      pure (k ++ p)
    else do
      let s ← serialize_item item
      pure (k ++ "=" ++ s)
  | .innerList inner_list => do
    let s ← serialize_inner_list inner_list
    pure (k ++ "=" ++ s)

/-- The member loop of `Serializer::serialize_dict`: members joined by
`", "`, no trailing separator. -/
def serializeDictMembers : Dictionary → SFVResult String
  | [] => pure ""
  | [m] => serializeDictMember m.1 m.2
  | m :: rest => do
    let s ← serializeDictMember m.1 m.2
    let r ← serializeDictMembers rest
    pure (s ++ ", " ++ r)

/-- `Serializer::serialize_dict` (`src/serializer.rs:85-119`): error on an
empty dictionary, otherwise the comma-space-joined members. -/
def serialize_dict (input_dict : Dictionary) : SFVResult String :=
  if input_dict.isEmpty then
    Except.error "serialize_dictionary: serializing empty field is not allowed"
  else
    serializeDictMembers input_dict

end Serializer

/-! ## Helper lemmas -/

/-- Splitting a failing `Except` bind: either the first action failed, or it
succeeded and the continuation failed. -/
theorem exceptBind_eq_error {α β : Type} (x : Except String α) (f : α → Except String β)
    (e : String) (h : (x >>= f) = Except.error e) :
    x = Except.error e ∨ ∃ a, x = Except.ok a ∧ f a = Except.error e := by
  cases x with
  | error e' =>
    simp only [Bind.bind, Except.bind, Except.error.injEq] at h
    exact Or.inl (by rw [h])
  | ok a => exact Or.inr ⟨a, rfl, h⟩

/-- A successful `Except` bind factors through a successful first action. -/
theorem exceptBind_eq_ok {α β : Type} (x : Except String α) (f : α → Except String β)
    (b : β) (h : (x >>= f) = Except.ok b) :
    ∃ a, x = Except.ok a ∧ f a = Except.ok b := by
  cases x with
  | error e' => simp only [Bind.bind, Except.bind] at h; exact absurd h (by simp)
  | ok a => exact ⟨a, rfl, h⟩

/-- The truncated integer component, in magnitude, is the mantissa magnitude
with the fractional digits divided away. -/
theorem Decimal.trunc_mantissa_natAbs (x : Decimal) :
    x.trunc.mantissa.natAbs = x.mantissa.natAbs / 10 ^ x.scale := by
  unfold Decimal.trunc
  dsimp only
  split
  · exact (Int.natAbs_neg _).trans (Int.natAbs_ofNat _)
  · exact Int.natAbs_ofNat _

/-- `to_u64` after `abs` after `trunc`, as used by decimal validation. -/
theorem Decimal.trunc_abs_to_u64 (x : Decimal) :
    x.trunc.abs.to_u64 =
      if x.mantissa.natAbs / 10 ^ x.scale < 2 ^ 64 then
        some (x.mantissa.natAbs / 10 ^ x.scale)
      else none := by
  have h : x.trunc.abs = ⟨((x.mantissa.natAbs / 10 ^ x.scale : Nat) : Int), 0⟩ := by
    unfold Decimal.trunc Decimal.abs
    dsimp only
    split
    · rw [Int.natAbs_neg, Int.natAbs_ofNat]
    · rw [Int.natAbs_ofNat]
  rw [h]
  unfold Decimal.to_u64
  dsimp only
  rw [if_neg (Int.natCast_nonneg (x.mantissa.natAbs / 10 ^ x.scale)).not_lt]
  rw [Int.natAbs_ofNat, pow_zero, Nat.div_one]

/-- Decimal validation in closed form: round to three fractional digits, then
accept exactly when the truncated integer component's magnitude is at most
999 999 999 999. -/
theorem BareItemDecimal.validate_eq (v : Decimal) :
    BareItemDecimal.validate v =
      if (v.round_dp 3).trunc.mantissa.natAbs ≤ 999999999999 then
        Except.ok (v.round_dp 3)
      else Except.error "serialize_decimal: integer component > 12 digits" := by
  unfold BareItemDecimal.validate
  dsimp only
  rw [Decimal.trunc_abs_to_u64, Decimal.trunc_mantissa_natAbs]
  generalize (v.round_dp 3).mantissa.natAbs / 10 ^ (v.round_dp 3).scale = n
  by_cases h1 : n < 2 ^ 64
  · rw [if_pos h1]
    by_cases h2 : n ≤ 999999999999
    · rw [if_pos h2]
      dsimp only
      rw [if_neg (by omega)]
    · rw [if_neg h2]
      dsimp only
      rw [if_pos (by omega)]
  · rw [if_neg h1, if_neg (show ¬ n ≤ 999999999999 by omega)]

/-- With fuel exceeding `n`, a number below `10 ^ k` renders in at most `k`
digits (for `k ≥ 1`). -/
theorem natDigitsAux_length_le (fuel : Nat) : ∀ n k, n < fuel → 1 ≤ k → n < 10 ^ k →
    (natDigitsAux fuel n).length ≤ k := by
  induction fuel with
  | zero => intro n k h; omega
  | succ fuel ih =>
    intro n k hfuel hk hn
    unfold natDigitsAux
    split
    · simpa using hk
    · rename_i h10
      push_neg at h10
      have hk2 : 2 ≤ k := by
        rcases Nat.lt_or_ge k 2 with hlt | hge
        · exfalso
          have hk1 : k = 1 := by omega
          rw [hk1] at hn
          simp at hn
          omega
        · exact hge
      simp only [List.length_append, List.length_cons, List.length_nil]
      have hdiv_fuel : n / 10 < fuel := by
        have h1 : n / 10 < n := Nat.div_lt_self (by omega) (by omega)
        omega
      have hdiv_pow : n / 10 < 10 ^ (k - 1) := by
        apply Nat.div_lt_of_lt_mul
        calc n < 10 ^ k := hn
          _ = 10 * 10 ^ (k - 1) := by
              rw [← pow_succ']
              congr 1
              omega
      have := ih (n / 10) (k - 1) hdiv_fuel (by omega) hdiv_pow
      omega

/-- A number below `10 ^ k` renders in at most `k` digits (for `k ≥ 1`). -/
theorem natDigits_length_le {n k : Nat} (hk : 1 ≤ k) (hn : n < 10 ^ k) :
    (natDigits n).length ≤ k :=
  natDigitsAux_length_le (n + 1) n k (Nat.lt_succ_self n) hk hn

/-- A scale-0 decimal has a zero fractional part. -/
theorem Decimal.fractIsZero_of_scale_zero (x : Decimal) (h : x.scale = 0) :
    x.fractIsZero = true := by
  unfold Decimal.fractIsZero
  rw [h]
  simp [Nat.mod_one]

/-- On a decimal whose fractional part is zero, the `{:.1}` format emits the
canonical integer rendering of the truncated value followed by `".0"`. -/
theorem Decimal.displayPrec1_eq (x : Decimal) (h : x.fractIsZero = true) :
    x.displayPrec1 = BareItemInteger.serialize_ref x.trunc.mantissa ++ ".0" := by
  have hq0 : x.mantissa < 0 → x.mantissa.natAbs / 10 ^ x.scale ≠ 0 := by
    intro hm h0
    unfold Decimal.fractIsZero at h
    simp only [decide_eq_true_eq] at h
    have hdm := Nat.div_add_mod x.mantissa.natAbs (10 ^ x.scale)
    rw [h0] at hdm
    omega
  unfold Decimal.displayPrec1 BareItemInteger.serialize_ref Decimal.trunc
  dsimp only
  generalize hq : x.mantissa.natAbs / 10 ^ x.scale = q
  rw [hq] at hq0
  by_cases hm : x.mantissa < 0
  · simp only [if_pos hm]
    rw [if_pos (show -(q : Int) < 0 by have := hq0 hm; omega)]
    rw [Int.natAbs_neg, Int.natAbs_ofNat]
  · simp only [if_neg hm]
    rw [if_neg (Int.natCast_nonneg q).not_lt, Int.natAbs_ofNat]

/-- Rounding to three fractional digits never leaves more than three. -/
theorem Decimal.round_dp_scale_le (x : Decimal) : (x.round_dp 3).scale ≤ 3 := by
  unfold Decimal.round_dp
  dsimp only
  split <;> simp_all

/-- A failed first action fails the whole bind. -/
theorem exceptBind_error_left {α β : Type} (x : Except String α)
    (f : α → Except String β) (e : String) (h : x = Except.error e) :
    (x >>= f) = Except.error e := by
  rw [h]; rfl

/-- A successful first action reduces the bind to its continuation. -/
theorem exceptBind_ok_left {α β : Type} (x : Except String α)
    (f : α → Except String β) (a : α) (h : x = Except.ok a) :
    (x >>= f) = f a := by
  rw [h]; rfl

/-- The two error strings `Serializer::serialize_key` can produce.  Key
validation is the only fallible step of serialization, so every serializer
error is one of these two (or one of the two empty-container errors raised
before any member is serialized). -/
def IsKeyErr (e : String) : Prop :=
  e = "serialize_key: disallowed character in input" ∨
  e = "serialize_key: first character is not lcalpha or '*'"

/-- Key serialization only ever fails with a key error. -/
theorem serialize_key_error {k e : String}
    (h : Serializer.serialize_key k = Except.error e) : IsKeyErr e := by
  unfold Serializer.serialize_key at h
  dsimp only at h
  split at h
  · exact Or.inl (Except.error.inj h).symm
  · split at h
    · exact absurd h (by simp)
    · split at h
      · exact Or.inr (Except.error.inj h).symm
      · exact absurd h (by simp)

/-- Parameter serialization only ever fails with a key error. -/
theorem serialize_ref_parameter_error {n : String} {v : BareItem} {e : String}
    (h : Serializer.serialize_ref_parameter n v = Except.error e) : IsKeyErr e := by
  unfold Serializer.serialize_ref_parameter at h
  rcases exceptBind_eq_error _ _ _ h with h1 | ⟨a, _, h2⟩
  · exact serialize_key_error h1
  · split at h2 <;> exact absurd h2 (by simp [pure, Except.pure])

/-- Parameter-list serialization only ever fails with a key error. -/
theorem serialize_parameters_error : ∀ {ps : Parameters} {e : String},
    Serializer.serialize_parameters ps = Except.error e → IsKeyErr e := by
  intro ps
  induction ps with
  | nil =>
    intro e h
    exact absurd h (by simp [Serializer.serialize_parameters, pure, Except.pure])
  | cons p rest ih =>
    intro e h
    unfold Serializer.serialize_parameters at h
    rcases exceptBind_eq_error _ _ _ h with h1 | ⟨a, _, h2⟩
    · exact serialize_ref_parameter_error h1
    · rcases exceptBind_eq_error _ _ _ h2 with h3 | ⟨b, _, h4⟩
      · exact ih h3
      · exact absurd h4 (by simp [pure, Except.pure])

/-- Item serialization only ever fails with a key error. -/
theorem serialize_item_error {it : Item} {e : String}
    (h : Serializer.serialize_item it = Except.error e) : IsKeyErr e := by
  unfold Serializer.serialize_item at h
  rcases exceptBind_eq_error _ _ _ h with h1 | ⟨a, _, h2⟩
  · exact serialize_parameters_error h1
  · exact absurd h2 (by simp [pure, Except.pure])

/-- The inner-list item loop only ever fails with a key error. -/
theorem serializeItemsSpaceSep_error : ∀ {items : List Item} {e : String},
    Serializer.serializeItemsSpaceSep items = Except.error e → IsKeyErr e := by
  intro items
  induction items with
  | nil =>
    intro e h
    exact absurd h (by simp [Serializer.serializeItemsSpaceSep, pure, Except.pure])
  | cons i rest ih =>
    intro e h
    cases rest with
    | nil => exact serialize_item_error h
    | cons j rest' =>
      unfold Serializer.serializeItemsSpaceSep at h
      rcases exceptBind_eq_error _ _ _ h with h1 | ⟨a, _, h2⟩
      · exact serialize_item_error h1
      · rcases exceptBind_eq_error _ _ _ h2 with h3 | ⟨b, _, h4⟩
        · exact ih h3
        · exact absurd h4 (by simp [pure, Except.pure])

/-- Inner-list serialization only ever fails with a key error. -/
theorem serialize_inner_list_error {l : InnerList} {e : String}
    (h : Serializer.serialize_inner_list l = Except.error e) : IsKeyErr e := by
  unfold Serializer.serialize_inner_list at h
  rcases exceptBind_eq_error _ _ _ h with h1 | ⟨a, _, h2⟩
  · exact serializeItemsSpaceSep_error h1
  · rcases exceptBind_eq_error _ _ _ h2 with h3 | ⟨b, _, h4⟩
    · exact serialize_parameters_error h3
    · exact absurd h4 (by simp [pure, Except.pure])

/-- A list member only ever fails with a key error. -/
theorem serializeListMember_error {m : ListEntry} {e : String}
    (h : Serializer.serializeListMember m = Except.error e) : IsKeyErr e := by
  cases m with
  | item i => exact serialize_item_error h
  | innerList l => exact serialize_inner_list_error h

/-- The list member loop only ever fails with a key error. -/
theorem serializeListMembers_error : ∀ {l : SfvList} {e : String},
    Serializer.serializeListMembers l = Except.error e → IsKeyErr e := by
  intro l
  induction l with
  | nil =>
    intro e h
    exact absurd h (by simp [Serializer.serializeListMembers, pure, Except.pure])
  | cons m rest ih =>
    intro e h
    cases rest with
    | nil => exact serializeListMember_error h
    | cons m' rest' =>
      unfold Serializer.serializeListMembers at h
      rcases exceptBind_eq_error _ _ _ h with h1 | ⟨a, _, h2⟩
      · exact serializeListMember_error h1
      · rcases exceptBind_eq_error _ _ _ h2 with h3 | ⟨b, _, h4⟩
        · exact ih h3
        · exact absurd h4 (by simp [pure, Except.pure])

/-- A dictionary member only ever fails with a key error. -/
theorem serializeDictMember_error {n : String} {v : ListEntry} {e : String}
    (h : Serializer.serializeDictMember n v = Except.error e) : IsKeyErr e := by
  unfold Serializer.serializeDictMember at h
  rcases exceptBind_eq_error _ _ _ h with h1 | ⟨a, _, h2⟩
  · exact serialize_key_error h1
  · cases v with
    | item i =>
      dsimp only at h2
      split at h2
      · rcases exceptBind_eq_error _ _ _ h2 with h3 | ⟨b, _, h4⟩
        · exact serialize_parameters_error h3
        · exact absurd h4 (by simp [pure, Except.pure])
      · rcases exceptBind_eq_error _ _ _ h2 with h3 | ⟨b, _, h4⟩
        · exact serialize_item_error h3
        · exact absurd h4 (by simp [pure, Except.pure])
    | innerList il =>
      dsimp only at h2
      rcases exceptBind_eq_error _ _ _ h2 with h3 | ⟨b, _, h4⟩
      · exact serialize_inner_list_error h3
      · exact absurd h4 (by simp [pure, Except.pure])

/-- The dictionary member loop only ever fails with a key error. -/
theorem serializeDictMembers_error : ∀ {d : Dictionary} {e : String},
    Serializer.serializeDictMembers d = Except.error e → IsKeyErr e := by
  intro d
  induction d with
  | nil =>
    intro e h
    exact absurd h (by simp [Serializer.serializeDictMembers, pure, Except.pure])
  | cons m rest ih =>
    intro e h
    cases rest with
    | nil => exact serializeDictMember_error h
    | cons m' rest' =>
      unfold Serializer.serializeDictMembers at h
      rcases exceptBind_eq_error _ _ _ h with h1 | ⟨a, _, h2⟩
      · exact serializeDictMember_error h1
      · rcases exceptBind_eq_error _ _ _ h2 with h3 | ⟨b, _, h4⟩
        · exact ih h3
        · exact absurd h4 (by simp [pure, Except.pure])

/-- A key accepted by `serialize_key` satisfies the key grammar: every
character is lowercase-ASCII, a digit, or `_ - * .`, and any first character
is lowercase-ASCII or `*`. -/
theorem serialize_key_ok_sound {k : String} {r : String}
    (h : Serializer.serialize_key k = Except.ok r) :
    (∀ c ∈ k.data, (97 ≤ c.toNat ∧ c.toNat ≤ 122) ∨ (48 ≤ c.toNat ∧ c.toNat ≤ 57) ∨
      c = '_' ∨ c = '-' ∨ c = '*' ∨ c = '.') ∧
    (∀ c, k.data.head? = some c → (97 ≤ c.toNat ∧ c.toNat ≤ 122) ∨ c = '*') := by
  unfold Serializer.serialize_key at h
  dsimp only at h
  split at h
  · exact absurd h (by simp)
  · rename_i hall
    simp only [List.any_eq_true, decide_eq_true_eq, not_exists, not_and, not_not] at hall
    refine ⟨fun c hc => hall c hc, ?_⟩
    split at h
    · rename_i hnil
      intro c hc
      rw [hnil] at hc
      exact absurd hc (by simp)
    · rename_i c' rest' hcons
      split at h
      · exact absurd h (by simp)
      · rename_i hfirst
        intro c hc
        rw [hcons] at hc
        simp only [List.head?_cons, Option.some.injEq] at hc
        subst hc
        simpa using not_not.mp hfirst

/-- A bad key fails the member serialization of any dictionary member that
carries it. -/
theorem serializeDictMember_badkey {k : String} {v : ListEntry} {e : String}
    (he : Serializer.serialize_key k = Except.error e) :
    Serializer.serializeDictMember k v = Except.error e := by
  unfold Serializer.serializeDictMember
  exact exceptBind_error_left _ _ _ he

/-- A bad key fails the serialization of any parameter that carries it. -/
theorem serialize_ref_parameter_badkey {k : String} {v : BareItem} {e : String}
    (he : Serializer.serialize_key k = Except.error e) :
    Serializer.serialize_ref_parameter k v = Except.error e := by
  unfold Serializer.serialize_ref_parameter
  exact exceptBind_error_left _ _ _ he

/-- The dictionary member loop fails whenever any member carries a key that
`serialize_key` rejects. -/
theorem serializeDictMembers_badkey {k : String}
    (hk : ∃ e, Serializer.serialize_key k = Except.error e) :
    ∀ (d : Dictionary), (∃ v, (k, v) ∈ d) →
      ∃ e, Serializer.serializeDictMembers d = Except.error e := by
  intro d
  induction d with
  | nil => rintro ⟨v, hv⟩; cases hv
  | cons m rest ih =>
    rintro ⟨v, hv⟩
    rcases List.mem_cons.mp hv with heq | hmem
    · obtain ⟨e, he⟩ := hk
      have hm : Serializer.serializeDictMember m.1 m.2 = Except.error e := by
        rw [← heq]
        exact serializeDictMember_badkey he
      cases rest with
      | nil => exact ⟨e, hm⟩
      | cons m' rest' =>
        refine ⟨e, ?_⟩
        unfold Serializer.serializeDictMembers
        exact exceptBind_error_left _ _ _ hm
    · cases rest with
      | nil => cases hmem
      | cons m' rest' =>
        cases hfirst : Serializer.serializeDictMember m.1 m.2 with
        | error e' =>
          refine ⟨e', ?_⟩
          unfold Serializer.serializeDictMembers
          exact exceptBind_error_left _ _ _ hfirst
        | ok s =>
          obtain ⟨e', he'⟩ := ih ⟨v, hmem⟩
          refine ⟨e', ?_⟩
          unfold Serializer.serializeDictMembers
          rw [exceptBind_ok_left _ _ _ hfirst]
          exact exceptBind_error_left _ _ _ he'

/-- The parameter loop fails whenever any parameter carries a key that
`serialize_key` rejects. -/
theorem serialize_parameters_badkey {k : String}
    (hk : ∃ e, Serializer.serialize_key k = Except.error e) :
    ∀ (ps : Parameters), (∃ v, (k, v) ∈ ps) →
      ∃ e, Serializer.serialize_parameters ps = Except.error e := by
  intro ps
  induction ps with
  | nil => rintro ⟨v, hv⟩; cases hv
  | cons p rest ih =>
    rintro ⟨v, hv⟩
    rcases List.mem_cons.mp hv with heq | hmem
    · obtain ⟨e, he⟩ := hk
      refine ⟨e, ?_⟩
      unfold Serializer.serialize_parameters
      apply exceptBind_error_left
      rw [← heq]
      exact serialize_ref_parameter_badkey he
    · cases hfirst : Serializer.serialize_ref_parameter p.1 p.2 with
      | error e' =>
        refine ⟨e', ?_⟩
        unfold Serializer.serialize_parameters
        exact exceptBind_error_left _ _ _ hfirst
      | ok s =>
        obtain ⟨e', he'⟩ := ih ⟨v, hmem⟩
        refine ⟨e', ?_⟩
        unfold Serializer.serialize_parameters
        rw [exceptBind_ok_left _ _ _ hfirst]
        exact exceptBind_error_left _ _ _ he'

/-! ## Claim theorems -/

/-- **C2.** Serializing a zero-member List or Dictionary fails with the
Container-policy-violation error and produces no output; serializing a
non-empty List or Dictionary never fails with that error (its only possible
failures are key errors, which carry different messages). -/
theorem c2_empty_container_policy (l : SfvList) (d : Dictionary)
    (hl : l ≠ []) (hd : d ≠ []) :
    Serializer.serialize_list [] =
      Except.error "serialize_list: serializing empty field is not allowed" ∧
    Serializer.serialize_dict [] =
      Except.error "serialize_dictionary: serializing empty field is not allowed" ∧
    Serializer.serialize_list l ≠
      Except.error "serialize_list: serializing empty field is not allowed" ∧
    Serializer.serialize_dict d ≠
      Except.error "serialize_dictionary: serializing empty field is not allowed" := by
  refine ⟨rfl, rfl, ?_, ?_⟩
  · intro hcontra
    unfold Serializer.serialize_list at hcontra
    rw [if_neg (fun hemp => hl (List.isEmpty_iff.mp hemp))] at hcontra
    rcases serializeListMembers_error hcontra with h | h <;> exact absurd h (by decide)
  · intro hcontra
    unfold Serializer.serialize_dict at hcontra
    rw [if_neg (fun hemp => hd (List.isEmpty_iff.mp hemp))] at hcontra
    rcases serializeDictMembers_error hcontra with h | h <;> exact absurd h (by decide)

/-- **C2 witness.** A one-member list and a one-member dictionary never fail
with the empty-container error. -/
theorem c2_empty_container_policy_witness :
    Serializer.serialize_list [ListEntry.item ⟨BareItem.boolean true, []⟩] ≠
      Except.error "serialize_list: serializing empty field is not allowed" ∧
    Serializer.serialize_dict [("a", ListEntry.item ⟨BareItem.boolean true, []⟩)] ≠
      Except.error "serialize_dictionary: serializing empty field is not allowed" :=
  ⟨(c2_empty_container_policy [ListEntry.item ⟨BareItem.boolean true, []⟩]
      [("a", ListEntry.item ⟨BareItem.boolean true, []⟩)] (by simp) (by simp)).2.2.1,
   (c2_empty_container_policy [ListEntry.item ⟨BareItem.boolean true, []⟩]
      [("a", ListEntry.item ⟨BareItem.boolean true, []⟩)] (by simp) (by simp)).2.2.2⟩

/-- **C3.** Every key violating the key grammar — a first character that is
not lowercase-ASCII or `*`, or any character outside lowercase-ASCII /
digits / `_ - . *` — is rejected by `serialize_key`, and so is the
serialization of any Dictionary or Parameters containing that key. -/
theorem c3_key_grammar_rejection (k : String)
    (hbad : (∃ c, k.data.head? = some c ∧
        ¬((97 ≤ c.toNat ∧ c.toNat ≤ 122) ∨ c = '*')) ∨
      (∃ c ∈ k.data, ¬((97 ≤ c.toNat ∧ c.toNat ≤ 122) ∨ (48 ≤ c.toNat ∧ c.toNat ≤ 57) ∨
        c = '_' ∨ c = '-' ∨ c = '*' ∨ c = '.'))) :
    (∃ e, Serializer.serialize_key k = Except.error e) ∧
    (∀ d : Dictionary, (∃ v, (k, v) ∈ d) →
      ∃ e, Serializer.serialize_dict d = Except.error e) ∧
    (∀ ps : Parameters, (∃ v, (k, v) ∈ ps) →
      ∃ e, Serializer.serialize_parameters ps = Except.error e) := by
  have hkey : ∃ e, Serializer.serialize_key k = Except.error e := by
    cases hk : Serializer.serialize_key k with
    | error e => exact ⟨e, rfl⟩
    | ok r =>
      exfalso
      obtain ⟨hall, hfirst⟩ := serialize_key_ok_sound hk
      rcases hbad with ⟨c, hc, hviol⟩ | ⟨c, hc, hviol⟩
      · exact hviol (hfirst c hc)
      · exact hviol (hall c hc)
  refine ⟨hkey, ?_, serialize_parameters_badkey hkey⟩
  intro d hd
  obtain ⟨e, he⟩ := serializeDictMembers_badkey hkey d hd
  refine ⟨e, ?_⟩
  unfold Serializer.serialize_dict
  have hdne : d ≠ [] := by
    rintro rfl
    obtain ⟨v, hv⟩ := hd
    cases hv
  rw [if_neg (fun hemp => hdne (List.isEmpty_iff.mp hemp))]
  exact he

/-- **C3 witness.** The key `"A"` (uppercase first character) is rejected,
and a dictionary containing it fails to serialize. -/
theorem c3_key_grammar_rejection_witness :
    (∃ e, Serializer.serialize_key "A" = Except.error e) ∧
    (∃ e, Serializer.serialize_dict
      [("A", ListEntry.item ⟨BareItem.boolean true, []⟩)] = Except.error e) :=
  ⟨(c3_key_grammar_rejection "A" (Or.inl ⟨'A', rfl, by decide⟩)).1,
   (c3_key_grammar_rejection "A" (Or.inl ⟨'A', rfl, by decide⟩)).2.1
     [("A", ListEntry.item ⟨BareItem.boolean true, []⟩)]
     ⟨ListEntry.item ⟨BareItem.boolean true, []⟩, by simp⟩⟩

/-- **C6.** Boolean-true abbreviation: a dictionary member holding an Item
whose bare item is Boolean true is emitted as the key followed by the item's
parameters alone (no `=?1`), while Boolean false is emitted in full as
`=?0`; and a parameter whose value is Boolean true is emitted as `;key`
alone, while Boolean false is emitted as `;key=?0`. -/
theorem c6_boolean_true_abbreviation (k : String) (ps : Parameters) (pstr : String)
    (hk : Serializer.serialize_key k = Except.ok k)
    (hp : Serializer.serialize_parameters ps = Except.ok pstr) :
    Serializer.serializeDictMember k (ListEntry.item ⟨BareItem.boolean true, ps⟩) =
      Except.ok (k ++ pstr) ∧
    Serializer.serializeDictMember k (ListEntry.item ⟨BareItem.boolean false, ps⟩) =
      Except.ok (k ++ "=?0" ++ pstr) ∧
    Serializer.serialize_ref_parameter k (BareItem.boolean true) =
      Except.ok (";" ++ k) ∧
    Serializer.serialize_ref_parameter k (BareItem.boolean false) =
      Except.ok (";" ++ k ++ "=?0") := by
  refine ⟨?_, ?_, ?_, ?_⟩
  · unfold Serializer.serializeDictMember
    rw [exceptBind_ok_left _ _ _ hk]
    dsimp only
    rw [if_pos rfl]
    rw [exceptBind_ok_left _ _ _ hp]
    rfl
  · unfold Serializer.serializeDictMember
    rw [exceptBind_ok_left _ _ _ hk]
    dsimp only
    rw [if_neg (by simp)]
    unfold Serializer.serialize_item
    rw [exceptBind_ok_left _ _ _ hp]
    dsimp only [pure, Except.pure, Bind.bind, Except.bind]
    rw [show (Item.mk (BareItem.boolean false) ps).bare_item.write = "?0" from rfl]
    rw [String.append_assoc, String.append_assoc]
    rfl
  · unfold Serializer.serialize_ref_parameter
    rw [exceptBind_ok_left _ _ _ hk]
    rw [if_neg (by simp)]
    rfl
  · unfold Serializer.serialize_ref_parameter
    rw [exceptBind_ok_left _ _ _ hk]
    rw [if_pos (by simp)]
    rw [show BareItem.write (BareItem.boolean false) = "?0" from rfl]
    rw [String.append_assoc]
    rfl

/-- **C6 witness.** The abbreviation at the concrete key `"a"` with no
parameters. -/
theorem c6_boolean_true_abbreviation_witness :
    Serializer.serializeDictMember "a" (ListEntry.item ⟨BareItem.boolean true, []⟩) =
      Except.ok ("a" ++ "") ∧
    Serializer.serializeDictMember "a" (ListEntry.item ⟨BareItem.boolean false, []⟩) =
      Except.ok ("a" ++ "=?0" ++ "") ∧
    Serializer.serialize_ref_parameter "a" (BareItem.boolean true) =
      Except.ok (";" ++ "a") ∧
    Serializer.serialize_ref_parameter "a" (BareItem.boolean false) =
      Except.ok (";" ++ "a" ++ "=?0") :=
  c6_boolean_true_abbreviation "a" [] "" rfl rfl

/-- **C1.** Decimal construction rounds to exactly 3 fractional digits before
range-checking: it succeeds exactly when the magnitude of the truncated
integer component of the rounded value is at most 999 999 999 999, every
failure carries the Range-violation error, and `1000000000000.1`
(mantissa 10000000000001, scale 1) is rejected after rounding. -/
theorem c1_decimal_construction (v : Decimal) :
    ((BareItemDecimal.validate v).isOk ↔
      (v.round_dp 3).trunc.mantissa.natAbs ≤ 999999999999) ∧
    (BareItemDecimal.validate v = Except.ok (v.round_dp 3) ∨
     BareItemDecimal.validate v =
       Except.error "serialize_decimal: integer component > 12 digits") ∧
    BareItemDecimal.validate ⟨10000000000001, 1⟩ =
      Except.error "serialize_decimal: integer component > 12 digits" := by
  refine ⟨?_, ?_, rfl⟩
  · rw [BareItemDecimal.validate_eq]
    split <;> rename_i h <;> simp [Except.isOk, Except.toBool, h]
  · rw [BareItemDecimal.validate_eq]
    split
    · exact Or.inl rfl
    · exact Or.inr rfl

/-- **C9 counterexample.** The claim says the decimal `13.4565` (a
wider-precision source: mantissa 134565, scale 4, exactly what
`rust_decimal`'s `from_f64(13.4565)` produces) serializes as `"13.457"`.  The
code rounds half-to-even (`round_dp`'s banker's rounding), giving `13.456`,
so construction followed by serialization emits `"13.456"`, not `"13.457"`. -/
theorem c9_rounding_counterexample :
    (BareItemDecimal.validate ⟨134565, 4⟩).map BareItemDecimal.serialize_ref =
      Except.ok "13.456" ∧
    "13.456" ≠ "13.457" :=
  ⟨rfl, by decide⟩

/-- **C9 (amended).** A decimal constructed from the wider-precision value
`13.4565` serializes as `"13.456"` (round-half-to-even at the midpoint of the
3-digit rounding), and a decimal constructed from `2.0` serializes as
`"2.0"`. -/
theorem c9_rounding_vectors :
    (BareItemDecimal.validate ⟨134565, 4⟩).map BareItemDecimal.serialize_ref =
      Except.ok "13.456" ∧
    (BareItemDecimal.validate ⟨2, 0⟩).map BareItemDecimal.serialize_ref =
      Except.ok "2.0" :=
  ⟨rfl, rfl⟩

/-- **C4 counterexample.** The claim says a constructed decimal whose value
equals `1.1` never serializes as `"1.10"`.  But the decimal with mantissa 110
and scale 2 — the value `1.10`, numerically equal to `1.1` since
`110 * 10 = 11 * 10^2` — passes validation unchanged (its scale is already at
most 3, so rounding is the identity) and its `to_string` emits the stored
scale, producing `"1.10"` with a trailing zero. -/
theorem c4_trailing_zero_counterexample :
    BareItemDecimal.validate ⟨110, 2⟩ = Except.ok ⟨110, 2⟩ ∧
    BareItemDecimal.serialize_ref ⟨110, 2⟩ = "1.10" ∧
    (110 : Int) * 10 ^ (1 : Nat) = 11 * 10 ^ (2 : Nat) :=
  ⟨rfl, rfl, by norm_num⟩

/-- **C4 (amended).** For every constructed decimal: if the fractional part is
zero the writer emits the canonical integer part followed by exactly one
fractional digit (`".0"`); otherwise it emits the integer part, a point, and
exactly `scale` fractional digits where `1 ≤ scale ≤ 3` is the stored scale
of the rounded value — an exact representation, but one that preserves
trailing zeros within the stored scale rather than minimizing them. -/
theorem c4_decimal_canonical_text (v d : Decimal)
    (h : BareItemDecimal.validate v = Except.ok d) :
    (d.fractIsZero = true →
      BareItemDecimal.serialize_ref d =
        BareItemInteger.serialize_ref d.trunc.mantissa ++ ".0") ∧
    (d.fractIsZero = false →
      1 ≤ d.scale ∧ d.scale ≤ 3 ∧
      ∃ frac : List Char, frac.length = d.scale ∧
        BareItemDecimal.serialize_ref d =
          (if d.mantissa < 0 then "-" else "") ++
            String.mk (natDigits (d.mantissa.natAbs / 10 ^ d.scale)) ++ "." ++
            String.mk frac) := by
  have hd : d = v.round_dp 3 := by
    rw [BareItemDecimal.validate_eq] at h
    split at h
    · exact (Except.ok.inj h).symm
    · exact absurd h (by simp)
  constructor
  · intro hz
    unfold BareItemDecimal.serialize_ref
    rw [if_pos hz]
    exact Decimal.displayPrec1_eq d hz
  · intro hz
    have hscale3 : d.scale ≤ 3 := hd ▸ Decimal.round_dp_scale_le v
    have hscale1 : 1 ≤ d.scale := by
      by_contra hlt
      rw [Decimal.fractIsZero_of_scale_zero d (by omega)] at hz
      exact absurd hz (by simp)
    refine ⟨hscale1, hscale3, ?_⟩
    unfold BareItemDecimal.serialize_ref
    rw [if_neg (by simp [hz])]
    unfold Decimal.toStr
    dsimp only
    rw [if_neg (show ¬ d.scale = 0 by omega)]
    refine ⟨List.replicate
        (d.scale - (natDigits (d.mantissa.natAbs % 10 ^ d.scale)).length) '0'
        ++ natDigits (d.mantissa.natAbs % 10 ^ d.scale), ?_, rfl⟩
    rw [List.length_append, List.length_replicate]
    have hfp : d.mantissa.natAbs % 10 ^ d.scale < 10 ^ d.scale :=
      Nat.mod_lt _ (by positivity)
    have := natDigits_length_le hscale1 hfp
    omega

/-- **C4 witness.** The amended theorem applied to the constructed decimal
`1.10`: its serialization carries exactly two fractional digits. -/
theorem c4_decimal_canonical_text_witness :
    1 ≤ (Decimal.mk 110 2).scale ∧ (Decimal.mk 110 2).scale ≤ 3 ∧
    ∃ frac : List Char, frac.length = (Decimal.mk 110 2).scale ∧
      BareItemDecimal.serialize_ref ⟨110, 2⟩ =
        (if (Decimal.mk 110 2).mantissa < 0 then "-" else "") ++
          String.mk (natDigits ((Decimal.mk 110 2).mantissa.natAbs /
            10 ^ (Decimal.mk 110 2).scale)) ++ "." ++ String.mk frac :=
  (c4_decimal_canonical_text ⟨110, 2⟩ ⟨110, 2⟩ rfl).2 rfl

/-- **C5.** Serializing the list
`[Item(Token "tok"), InnerList([Item(Integer 99; key=?0), Item(String "foo")]; bar)]`
yields exactly `tok, (99;key=?0 "foo");bar`: members joined by comma-space
with no trailing separator, inner-list items joined by single spaces inside
parentheses, followed by the inner list's parameters. -/
theorem c5_list_serialization :
    Serializer.serialize_list
      [ListEntry.item ⟨BareItem.token "tok", []⟩,
       ListEntry.innerList ⟨[⟨BareItem.integer 99, [("key", BareItem.boolean false)]⟩,
                             ⟨BareItem.string "foo", []⟩],
                            [("bar", BareItem.boolean true)]⟩] =
      Except.ok "tok, (99;key=?0 \"foo\");bar" := rfl

/-- **C7.** Integer construction from an `i64` succeeds exactly when the value
lies in `[-999999999999999, 999999999999999]`; outside that range it fails
with the Range-violation error, and an accepted value is stored unchanged and
read back by `as_int`. -/
theorem c7_integer_construction (v : Int) :
    (BareItemInteger.validate v = Except.ok v ↔
      -999999999999999 ≤ v ∧ v ≤ 999999999999999) ∧
    (BareItemInteger.validate v = Except.error "serialize_integer: integer is out of range" ↔
      ¬(-999999999999999 ≤ v ∧ v ≤ 999999999999999)) ∧
    (∀ b, BareItem.new_integer v = Except.ok b → b.as_int = some v) := by
  refine ⟨?_, ?_, ?_⟩
  · unfold BareItemInteger.validate
    dsimp only
    split <;> rename_i h <;> simp <;> omega
  · unfold BareItemInteger.validate
    dsimp only
    split <;> rename_i h <;> simp <;> omega
  · intro b hb
    unfold BareItem.new_integer BareItemInteger.validate at hb
    dsimp only at hb
    split at hb
    · simp only [Bind.bind, Except.bind] at hb
      exact absurd hb (by simp)
    · simp only [Bind.bind, Except.bind, pure, Except.pure, Except.ok.injEq] at hb
      subst hb
      rfl

/-- **C7 witness.** The accepted input 3 is stored and read back unchanged. -/
theorem c7_integer_construction_witness :
    BareItem.as_int (BareItem.integer 3) = some 3 :=
  (c7_integer_construction 3).2.2 (BareItem.integer 3) rfl

/-- **C8.** String construction succeeds exactly when every character lies in
the printable-ASCII range 0x20–0x7E; otherwise it fails with one of the two
Character-class-violation errors (non-ASCII, or control character). -/
theorem c8_string_construction (s : String) :
    (BareItemString.validate s = Except.ok s ↔
      ∀ c ∈ s.data, 0x20 ≤ c.toNat ∧ c.toNat ≤ 0x7e) ∧
    (BareItemString.validate s = Except.ok s ∨
     BareItemString.validate s = Except.error "serialize_string: non-ascii character" ∨
     BareItemString.validate s = Except.error "serialize_string: not a visible character") := by
  unfold BareItemString.validate
  dsimp only
  constructor
  · split <;> rename_i h1
    · simp only [List.all_eq_true, decide_eq_true_eq, not_forall] at h1
      obtain ⟨c, hc, hbig⟩ := h1
      simp only [reduceCtorEq, false_iff, not_forall]
      exact ⟨c, hc, by omega⟩
    · simp only [List.all_eq_true, decide_eq_true_eq, not_forall, not_exists] at h1
      split <;> rename_i h2
      · simp only [List.any_eq_true, decide_eq_true_eq] at h2
        obtain ⟨c, hc, hctl⟩ := h2
        simp only [reduceCtorEq, false_iff, not_forall]
        exact ⟨c, hc, by omega⟩
      · simp only [List.any_eq_true, decide_eq_true_eq, not_exists, not_and, not_or] at h2
        simp only [Except.ok.injEq, true_iff]
        intro c hc
        have ha := h1 c hc
        have hb := h2 c hc
        omega
  · split
    · exact Or.inr (Or.inl rfl)
    · split
      · exact Or.inr (Or.inr rfl)
      · exact Or.inl rfl

/-- **C10.** Token construction from the empty string succeeds — the
validator's first-character and tail-character checks are both skipped when
there is no first character — and the canonical writer emits nothing.  (The
missing `utils::is_tchar` is never consulted on the empty string.) -/
theorem c10_empty_token :
    BareItem.new_token "" = Except.ok (BareItem.token "") ∧
    BareItemToken.validate "" = Except.ok "" ∧
    BareItem.write (BareItem.token "") = "" :=
  ⟨rfl, rfl, rfl⟩

end Sfv
